import Mathlib

/-!
# Verification of the SDLC-query natural-language search layer

Shallow embedding, in Lean 4, of the pure/deterministic core of the
`zoekt-nl-query` server (repository `web1havv/SDLC-query`):

* the Go `strings` primitives the code relies on, modelled over `List Char`
  (byte positions coincide with character positions on the ASCII inputs the
  code manipulates);
* the data model (`Intent`, `SemanticCodeChunk`, `SemanticSearchResultV2`,
  zoekt `LineMatch`/`FileMatch`/`SearchResult`);
* `BasicTranslator.Translate` (pattern translator);
* the quote-balance repairs of `openrouter_translator.go`
  (`validateAndFixQuery`'s closing-quote fixes and the inline `file:"`
  segment repair of `TranslateWithOpenRouter`);
* the hybrid fusion step `enhanceSemanticWithZoekt` including its
  exchange-sort re-ranking loop;
* the snippet extractors `extractAnswerSnippets` (both copies in the source);
* the request handler `HandleSearch` of the hybrid server, with all external
  services (zoekt searcher, zoekt query parser, OpenRouter, ChromaDB)
  abstracted as an oracle environment, and with an explicit trace of which
  outbound calls were made.

Go `float32` score arithmetic is modelled by exact rationals `ℚ`: every
property proved below concerns the clamping/boost decision logic, which is
unaffected by rounding (e.g. `0.9 * 1.3 > 1` holds in `float32` as well).
-/

namespace SDLC

/-! ## Go string primitives over `List Char` -/

/-- Whitespace set of Go `strings.TrimSpace`, restricted to ASCII. -/
def isGoSpace (c : Char) : Bool :=
  c == ' ' || c == '\t' || c == '\n' || c == '\r' || c == '\x0b' || c == '\x0c'

/-- `headMatches sub l` is true when `sub` occurs at the head of `l`. -/
def headMatches : List Char → List Char → Bool
  | [], _ => true
  | _ :: _, [] => false
  | a :: as, b :: bs => a == b && headMatches as bs

/-- Go `strings.Contains` over char lists (substring occurrence). -/
def goContainsCL (sub : List Char) : List Char → Bool
  | [] => headMatches sub []
  | c :: t => headMatches sub (c :: t) || goContainsCL sub t

/-- Go `strings.Index` over char lists: first occurrence of `sub`, if any. -/
def goIndexCL (sub : List Char) : List Char → Option Nat
  | [] => if headMatches sub [] then some 0 else none
  | c :: t =>
    if headMatches sub (c :: t) then some 0
    else (goIndexCL sub t).map (· + 1)

/-- Fuel-driven worker for `goSplitCL`; every step consumes at least one
character, so fuel `≥ l.length` (as supplied by `goSplitCL`) never runs out. -/
def goSplitFuel (sep : List Char) : Nat → List Char → List Char → List (List Char)
  | _, [], acc => [acc.reverse]
  | 0, l, acc => [acc.reverse ++ l]
  | n + 1, c :: t, acc =>
    if headMatches sep (c :: t) && !sep.isEmpty then
      acc.reverse :: goSplitFuel sep n (t.drop (sep.length - 1)) []
    else
      goSplitFuel sep n t (c :: acc)

/-- Go `strings.Split` over char lists (for a non-empty separator):
splits around each leftmost non-overlapping occurrence of `sep`. -/
def goSplitCL (sep l : List Char) (acc : List Char) : List (List Char) :=
  goSplitFuel sep l.length l acc

/-- Go `strings.TrimSpace` (ASCII whitespace). -/
def goTrimCL (l : List Char) : List Char :=
  ((l.dropWhile isGoSpace).reverse.dropWhile isGoSpace).reverse

/-- ASCII lower-casing, as Go `strings.ToLower` acts on ASCII input. -/
def goToLowerCL (l : List Char) : List Char :=
  l.map fun c => if 'A' ≤ c ∧ c ≤ 'Z' then Char.ofNat (c.toNat + 32) else c

/-! String wrappers. -/

def goContains (s sub : String) : Bool := goContainsCL sub.data s.data

def goIndexOf (s sub : String) : Option Nat := goIndexCL sub.data s.data

def goSplit (s sep : String) : List String :=
  (goSplitCL sep.data s.data []).map String.mk

def goTrim (s : String) : String := ⟨goTrimCL s.data⟩

def goToLower (s : String) : String := ⟨goToLowerCL s.data⟩

/-- Go `strings.HasPrefix`. -/
def goStartsWith (s sub : String) : Bool := headMatches sub.data s.data

/-- Go `strings.HasSuffix`. -/
def goEndsWith (s sub : String) : Bool := headMatches sub.data.reverse s.data.reverse

/-- Go `strings.TrimSuffix`. -/
def goTrimTrailing (s sfx : String) : String :=
  if goEndsWith s sfx then ⟨s.data.take (s.data.length - sfx.data.length)⟩ else s

/-- Go `strings.TrimRight(s, "\r\n")`. -/
def goTrimRightNL (s : String) : String :=
  ⟨(s.data.reverse.dropWhile fun c => c == '\r' || c == '\n').reverse⟩

/-- Go `strings.Count(s, c)` for a single-character needle. -/
def goCountChar (s : String) (c : Char) : Nat := s.data.count c

/-- Go `strings.Join(parts, sep)`. -/
def goJoin (sep : String) : List String → String
  | [] => ""
  | p :: ps => ps.foldl (fun acc x => acc ++ sep ++ x) p

/-- First `n` characters of `s` (Go slice `s[:n]` on ASCII data). -/
def strTake (s : String) (n : Nat) : String := ⟨s.data.take n⟩

/-- All but the first `n` characters of `s` (Go slice `s[n:]` on ASCII data). -/
def strDrop (s : String) (n : Nat) : String := ⟨s.data.drop n⟩

/-! ## Data model

Faithful translations of the Go structs.  Field `Type` is spelled `Typ`
(`Type` is a Lean keyword); `float32` fields become `ℚ`. -/

/-- `Intent` from `openrouter_translator.go`. -/
structure Intent where
  Typ : String
  Entity : String
  Topic : String
  Confidence : ℚ
  Query : String
  Variations : List String
  deriving DecidableEq

/-- `SemanticCodeChunk` (part_003): `Embedding` is irrelevant to the claims
and omitted; all other fields kept. -/
structure SemanticCodeChunk where
  ID : String
  Content : String
  FileName : String
  StartLine : Int
  EndLine : Int
  Typ : String
  Language : String
  deriving DecidableEq

/-- `SemanticSearchResultV2` from `semantic_search.go`. -/
structure SemanticSearchResultV2 where
  Chunk : SemanticCodeChunk
  Similarity : ℚ
  Score : ℚ
  deriving DecidableEq

/-- The parts of `zoekt.LineMatch` the code reads: `Line`, `Before`, `After`
are byte slices holding text (modelled as `String`, empty string = nil
slice), `LineNumber` an integer. -/
structure LineMatch where
  Line : String
  Before : String
  After : String
  LineNumber : Int
  deriving DecidableEq

/-- The parts of `zoekt.FileMatch` the code reads. -/
structure FileMatch where
  FileName : String
  Repository : String
  LineMatches : List LineMatch
  Content : String
  deriving DecidableEq

/-- The part of `zoekt.SearchResult` the code reads. -/
structure SearchResult where
  Files : List FileMatch
  deriving DecidableEq

/-! ## BasicTranslator (part_002, third section)

`Translate` is a pure function: trims, lowercases, checks a fixed ordered
set of lexical patterns, and falls back to the trimmed input with type
`search`. -/

namespace BasicTranslator

/-- `BasicTranslator.Translate`: returns `(query, queryType)`. -/
def Translate (nlQuery : String) : String × String :=
  let q := goTrim nlQuery
  let lower := goToLower q
  if goContains lower "how many" && (goContains lower "article" || goContains lower "blog") then
    ("title:", "count")
  else if goContains lower "list" && (goContains lower "article" || goContains lower "blog") then
    ("title:", "list")
  else if goContains lower "find" && goContains lower "article" then
    (if goContains lower "about" then
      let parts := goSplit lower "about"
      if parts.length > 1 then (goTrim (parts.getD 1 ""), "find")
      else ("title:", "find")
    else ("title:", "find"))
  else if (goContains lower "have" || goContains lower "written about") && goContains lower "about" then
    (let parts := goSplit lower "about"
     if parts.length > 1 then
       let topic := goTrim (parts.getD 1 "")
       let topic := goTrimTrailing topic " in articles"
       let topic := goTrimTrailing topic " or not"
       (goTrim topic, "yesno")
     else ("title:", "yesno"))
  else (q, "search")

end BasicTranslator

/-! ## Quote-balance repairs (`openrouter_translator.go`)

`validateAndFixQuery` first applies two closing-quote fixes and then
syntax-checks the candidate against the external zoekt parser (only the
parser-independent quote fixes are modelled here; the parse-failure
fallback that strips `content:` wrappers is a separate repair pass that
depends on the external `query.Parse`). -/

/-- The closing-quote portion of `validateAndFixQuery`
(`openrouter_translator.go` lines 730-752):
1. if the query contains `content:"` and its trimmed form does not end in a
   quote, append one;
2. then, if it contains `file:"` and the text after the *last* occurrence of
   `file:"` contains no quote, append one.  (Go finds that text with
   `strings.LastIndex` + slicing; since `file:"` cannot overlap itself this
   equals the last piece of `strings.Split(q, "file:\"")`.) -/
def fixQueryQuotes (q : String) : String :=
  let q1 := if goContains q "content:\"" && !(goEndsWith (goTrim q) "\"") then q ++ "\"" else q
  if goContains q1 "file:\"" &&
      goCountChar ((goSplit q1 "file:\"").getLastD "") '\"' == 0 then
    q1 ++ "\""
  else q1

/-- One segment step of the inline `file:"` repair
(`TranslateWithOpenRouter`, lines 368-391): for a piece `part` following a
`file:"` marker, the pattern value ends at the first of `" OR "`, `" AND "`
or `" "` (Go computes the minimum index of these via repeated
`strings.Index`); when the value segment has no closing quote but contains
`.*`, a quote is inserted after it. -/
def fixSegment (part : String) : String :=
  let endIdx := [" OR ", " AND ", " "].foldl
    (fun e sep => match goIndexOf part sep with
      | some idx => if idx < e then idx else e
      | none => e)
    part.data.length
  let segment := strTake part endIdx
  if !(goContains segment "\"") && goContains segment ".*" then
    segment ++ "\"" ++ strDrop part endIdx
  else part

/-- The inline `file:"` segment repair of `TranslateWithOpenRouter`:
split on `file:"`, repair every piece after the first, re-join. -/
def fixFileSegments (q : String) : String :=
  if goContains q "file:\"" then
    match goSplit q "file:\"" with
    | [] => q
    | p0 :: rest => goJoin "file:\"" (p0 :: rest.map fixSegment)
  else q

/-! ## Hybrid fusion: `enhanceSemanticWithZoekt` (part_002, lines 963-1018)

The Go function (given a non-nil searcher and zoekt result, as in its only
call site) builds a file-name lookup from the zoekt result, boosts each
semantic result whose file also has keyword matches, and re-ranks with an
in-place double-loop exchange sort
(`for i; for j > i; if a[j].Score > a[i].Score swap`). -/

/-- Membership of `fileName` in the `zoektFileMap` lookup built from the
zoekt result's files. -/
def zoektHasFile (files : List FileMatch) (name : String) : Bool :=
  files.any fun f => f.FileName == name

/-- The per-result boost of `enhanceSemanticWithZoekt`: on a file-name hit,
score is multiplied by 1.3 and similarity by 1.2, each clamped at 1.0 by a
`> 1.0` check; otherwise the result is returned unchanged. -/
def boostResult (files : List FileMatch) (r : SemanticSearchResultV2) : SemanticSearchResultV2 :=
  if zoektHasFile files r.Chunk.FileName then
    { r with
      Score := if 1 < r.Score * (13 / 10) then 1 else r.Score * (13 / 10),
      Similarity := if 1 < r.Similarity * (12 / 10) then 1 else r.Similarity * (12 / 10) }
  else r

/-- Inner loop of the exchange sort at index `i`: scanning positions
`j > i`, whenever `a[j].Score > a[i].Score` the two entries are swapped.
Functionally: the running maximum is returned first and each displaced
current element is left in place in the remainder. -/
def selectMax (x : SemanticSearchResultV2) :
    List SemanticSearchResultV2 → SemanticSearchResultV2 × List SemanticSearchResultV2
  | [] => (x, [])
  | y :: ys =>
    if x.Score < y.Score then ((selectMax y ys).1, x :: (selectMax y ys).2)
    else ((selectMax x ys).1, y :: (selectMax x ys).2)

/-- Fuel-driven outer loop of the exchange sort; `selectMax` preserves
length, so fuel `= l.length` (as supplied by `exchangeSort`) never runs
out. -/
def exchangeSortAux : Nat → List SemanticSearchResultV2 → List SemanticSearchResultV2
  | 0, l => l
  | _ + 1, [] => []
  | n + 1, x :: xs => (selectMax x xs).1 :: exchangeSortAux n (selectMax x xs).2

/-- The double-loop exchange sort of `enhanceSemanticWithZoekt`
(lines 1008-1014). -/
def exchangeSort (l : List SemanticSearchResultV2) : List SemanticSearchResultV2 :=
  exchangeSortAux l.length l

/-- `enhanceSemanticWithZoekt`: boost each semantic result against the
zoekt file lookup, then re-rank by the exchange sort. -/
def enhanceSemanticWithZoekt (semanticResults : List SemanticSearchResultV2)
    (zoektResult : SearchResult) : List SemanticSearchResultV2 :=
  exchangeSort (semanticResults.map (boostResult zoektResult.Files))

/-- Modelled from the spec: the fusion boost as the spec words it — on a
keyword hit, score becomes `min 1 (1.3 * score)` and similarity
`min 1 (1.2 * similarity)`; otherwise both are unchanged.  Used to compare
the source's multiply-then-clamp against the spec's formula. -/
def specFusionBoost (files : List FileMatch) (r : SemanticSearchResultV2) : SemanticSearchResultV2 :=
  if zoektHasFile files r.Chunk.FileName then
    { r with
      Score := min 1 (r.Score * (13 / 10)),
      Similarity := min 1 (r.Similarity * (12 / 10)) }
  else r

/-- Modelled from the spec: stable insertion into a list sorted by
non-increasing score — the new element goes after every strictly greater
element and before equal ones, preserving input order among ties. -/
def insertDescStable (r : SemanticSearchResultV2) :
    List SemanticSearchResultV2 → List SemanticSearchResultV2
  | [] => [r]
  | x :: xs => if r.Score < x.Score then x :: insertDescStable r xs else r :: x :: xs

/-- Modelled from the spec: the stable sort by non-increasing score that the
spec's sort invariant describes ("ties keep the original relative order from
the semantic backend"). -/
def stableSortDesc : List SemanticSearchResultV2 → List SemanticSearchResultV2
  | [] => []
  | x :: xs => insertDescStable x (stableSortDesc xs)

/-! ## Snippet extraction, budgeted version (part_002, lines 276-399)

`extractAnswerSnippets(result, maxFiles)` of the first (`/ask`-serving)
server copy: a global target of 100 lines, a per-file budget of
`max (100 / maxFiles) 15` lines, three extraction methods per file.  Loop
`break`s on a reached budget are modelled as guarded no-op steps: the
budget counters never decrease, so once a guard fails every remaining
iteration of the Go loop body would be skipped identically.  The only
indexed accesses (`allLines[i]`) carry an out-of-bounds instrumentation
flag `oob`, so that "never reads past the end" is a provable proposition
about the model. -/

/-- The fixed global line target of the budgeted extractor. -/
def targetLinesTotal : Nat := 100

/-- The per-file line budget: `targetLinesTotal / maxFiles`, raised to 15
when smaller. -/
def linesPerFileOf (maxFiles : Nat) : Nat :=
  if targetLinesTotal / maxFiles < 15 then 15 else targetLinesTotal / maxFiles

/-- Per-file extraction state: running snippet text, lines taken from this
file, global line total, and the out-of-bounds instrumentation flag. -/
structure ExtSt where
  fileLines : Nat
  totalLines : Nat
  snippet : String
  oob : Bool
  deriving DecidableEq

/-- Whether index `i` is a valid index into a slice of length `len`
(Go would panic otherwise). -/
def idxOk (len : Nat) (i : Int) : Bool := decide (0 ≤ i) && decide (i < (len : Int))

/-- `allLines[i]` with a default (the `oob` flag records whether the real
code would have read past the end). -/
def lineAt (allLines : List String) (i : Int) : String := allLines.getD i.toNat ""

/-- One appended line in the match-window loop (content + newline,
both counters incremented). -/
def pushLine (st : ExtSt) (line : String) : ExtSt :=
  { st with
    snippet := st.snippet ++ line ++ "\n",
    fileLines := st.fileLines + 1,
    totalLines := st.totalLines + 1 }

/-- The window loop of method 1
(`for i := startLine; i < endLine && fileLines < linesPerFile &&
totalLines < targetLinesTotal; i++`): reads `allLines[i]`, trims trailing
`\r\n`, and appends the line unless it is empty and not the match line.
Fuel-driven; callers pass fuel `≥ endLine - i`, so fuel never runs out
before the `i < endLine` guard stops the loop. -/
def windowLoop (allLines : List String) (lpf : Nat) (lineNum endLine : Int) :
    Nat → Int → ExtSt → ExtSt
  | 0, _, st => st
  | k + 1, i, st =>
    if i < endLine ∧ st.fileLines < lpf ∧ st.totalLines < targetLinesTotal then
      let ok := idxOk allLines.length i
      let line := goTrimRightNL (lineAt allLines i)
      let st1 := { st with oob := st.oob || !ok }
      let st2 := if line ≠ "" ∨ i = lineNum - 1 then pushLine st1 line else st1
      windowLoop allLines lpf lineNum endLine k (i + 1) st2
    else st

/-- Method-1 per-match step: clamp the ±10-line window around the match's
line number to `[0, len(allLines))` and run the window loop. -/
def method1MatchStep (allLines : List String) (lpf : Nat) (st : ExtSt) (m : LineMatch) : ExtSt :=
  if st.fileLines ≥ lpf ∨ st.totalLines ≥ targetLinesTotal then st
  else
    let lineNum := m.LineNumber
    let startLine := if lineNum - 10 < 0 then 0 else lineNum - 10
    let endLine :=
      if (allLines.length : Int) < lineNum + 10 then (allLines.length : Int) else lineNum + 10
    windowLoop allLines lpf lineNum endLine (endLine - startLine).toNat startLine st

/-- Method-1 fallback when the file has content but no line matches:
take the first `extractCount = min linesPerFile (len allLines)` lines
(`for i := 0; i < extractCount && totalLines < targetLinesTotal; i++`),
appending each unconditionally. -/
def firstLinesLoop (allLines : List String) (extractCount : Nat) :
    Nat → Nat → ExtSt → ExtSt
  | 0, _, st => st
  | k + 1, i, st =>
    if i < extractCount ∧ st.totalLines < targetLinesTotal then
      let ok := idxOk allLines.length (i : Int)
      let line := goTrimRightNL (lineAt allLines (i : Int))
      let st1 := pushLine { st with oob := st.oob || !ok } line
      firstLinesLoop allLines extractCount k (i + 1) st1
    else st

/-- Method-2 inner loop body over the lines of a context blob
(`Before`/`After` split on newlines): trim, skip empties, budget-guarded. -/
def blobLineStep (lpf : Nat) (st : ExtSt) (rawLine : String) : ExtSt :=
  if st.fileLines < lpf ∧ st.totalLines < targetLinesTotal then
    let line := goTrim rawLine
    if line ≠ "" then pushLine st line else st
  else st

/-- Method-2 per-match step (content unavailable): consume the before blob,
the matched line, then the after blob, each under both budgets. -/
def method2MatchStep (lpf : Nat) (st : ExtSt) (m : LineMatch) : ExtSt :=
  if st.fileLines ≥ lpf ∨ st.totalLines ≥ targetLinesTotal then st
  else
    let st1 := if m.Before ≠ "" then (goSplit m.Before "\n").foldl (blobLineStep lpf) st else st
    let st2 :=
      if st1.fileLines < lpf ∧ st1.totalLines < targetLinesTotal then
        let lineStr := goTrim m.Line
        if lineStr ≠ "" then pushLine st1 lineStr else st1
      else st1
    if m.After ≠ "" ∧ st2.fileLines < lpf ∧ st2.totalLines < targetLinesTotal then
      (goSplit m.After "\n").foldl (blobLineStep lpf) st2
    else st2

/-- Accumulator of the outer file loop of the budgeted extractor. -/
structure ExtAcc where
  snippets : List String
  count : Nat
  totalLines : Nat
  perFile : List Nat
  oob : Bool
  deriving DecidableEq

/-- Per-file step of the budgeted extractor: skip once the file count or the
global budget is reached; otherwise write the header and run the applicable
extraction method.  (Go appends the snippet under `snippet.Len() > 0`, which
always holds because the header was written, so the append is
unconditional here; `perFile` additionally records this file's line count
for the statement of the per-file budget bound.) -/
def fileStep (lpf maxFiles : Nat) (acc : ExtAcc) (file : FileMatch) : ExtAcc :=
  if acc.count ≥ maxFiles ∨ acc.totalLines ≥ targetLinesTotal then acc
  else
    let header := "File: " ++ file.FileName ++ "\n" ++ "Repository: " ++ file.Repository ++ "\n\n"
    let st0 : ExtSt := ⟨0, acc.totalLines, header, acc.oob⟩
    let st :=
      if file.Content ≠ "" then
        let allLines := goSplit file.Content "\n"
        if file.LineMatches.length > 0 then
          file.LineMatches.foldl (method1MatchStep allLines lpf) st0
        else
          let extractCount := if allLines.length < lpf then allLines.length else lpf
          firstLinesLoop allLines extractCount extractCount 0 st0
      else if file.LineMatches.length > 0 then
        file.LineMatches.foldl (method2MatchStep lpf) st0
      else st0
    { snippets := acc.snippets ++ [st.snippet],
      count := acc.count + 1,
      totalLines := st.totalLines,
      perFile := acc.perFile ++ [st.fileLines],
      oob := st.oob }

/-- `extractAnswerSnippets` — the budgeted extractor of the first server
copy (part_002, lines 276-399).  (Go computes `100 / maxFiles` with integer
division; its only callers pass 3 and 10.) -/
def extractAnswerSnippets (result : SearchResult) (maxFiles : Nat) : ExtAcc :=
  result.Files.foldl (fileStep (linesPerFileOf maxFiles) maxFiles) ⟨[], 0, 0, [], false⟩

/-! ## Snippet extraction, simple version (part_002, lines 926-959)

The hybrid server's `extractAnswerSnippets`: header plus at most the first
5 line matches per file (before blob, matched line, after blob), up to
`maxFiles` files; no line budget, no indexing. -/

/-- Per-match append of the simple extractor. -/
def simpleMatchText (m : LineMatch) : String :=
  (if m.Before ≠ "" then m.Before ++ "\n" else "") ++ m.Line ++ "\n" ++
    (if m.After ≠ "" then m.After ++ "\n" else "")

/-- Per-file step of the simple extractor. -/
def fileStepV2 (maxFiles : Nat) (acc : List String × Nat) (file : FileMatch) :
    List String × Nat :=
  if acc.2 ≥ maxFiles then acc
  else
    let body := (file.LineMatches.take 5).foldl (fun s m => s ++ simpleMatchText m) ""
    (acc.1 ++ ["File: " ++ file.FileName ++ "\n" ++ body], acc.2 + 1)

/-- `extractAnswerSnippets` — the simple extractor of the hybrid server copy
(part_002, lines 926-959). -/
def extractAnswerSnippetsV2 (result : SearchResult) (maxFiles : Nat) : List String :=
  (result.Files.foldl (fileStepV2 maxFiles) ([], 0)).1

/-! ## The hybrid `HandleSearch` handler (part_002, lines 611-924)

All outbound calls are abstracted into an oracle environment `Env`
(fixed per request): the OpenRouter translator outcome, the semantic
service's availability / indexed state / search outcome, the zoekt query
parser verdict per query string, the zoekt searcher outcome and the
completion-service answer.  The handler is then a pure function from the
environment and the request parameters to a `Response` plus a `Trace`
recording which outbound calls were performed. -/

/-- Oracle environment for one request. -/
structure Env where
  /-- `s.openRouterTranslator.enabled`. -/
  openRouterEnabled : Bool
  /-- Outcome of `TranslateWithOpenRouter(nlQuery)`: error, or the returned
  `(zoektQuery, intent)` (the returned query may be empty). -/
  translate : Except Unit (String × Intent)
  /-- `s.semanticSearch != nil`. -/
  semanticAvailable : Bool
  /-- Verdict of `s.semanticSearch.IsIndexed()` (errors are discarded by the
  handler). -/
  isIndexed : Bool
  /-- Outcome of `s.semanticSearch.Search(nlQuery, 20)`. -/
  semanticSearchOutcome : Except Unit (List SemanticSearchResultV2)
  /-- Whether `query.Parse(q)` succeeds, per query string. -/
  parseOk : String → Bool
  /-- `result` of `s.searcher.Search(...)` (`none` = nil pointer). -/
  keywordSearchResult : Option SearchResult
  /-- `err` of `s.searcher.Search(...)` (`none` = nil error). -/
  keywordSearchErr : Option String
  /-- Return value of `AnswerFromSnippets` (empty string = no answer). -/
  answerFromSnippets : String

/-- Which outbound calls the handler performed. -/
structure Trace where
  /-- `TranslateWithOpenRouter` was called. -/
  llmTranslateCalled : Bool
  /-- `s.semanticSearch.Search` was called. -/
  semanticQueried : Bool
  /-- `s.searcher.Search` (keyword search) was executed. -/
  keywordSearchExecuted : Bool
  /-- `AnswerFromSnippets` (completion service) was called for the answer. -/
  answerServiceCalled : Bool
  deriving DecidableEq

/-- The JSON response object, as far as the claims are concerned.  Fields
not set by a given return site keep their zero value, mirroring absent JSON
keys. -/
structure Response where
  status : Nat := 200
  success : Bool := false
  error : String := ""
  originalQuery : String := ""
  translatedQuery : String := ""
  queryType : String := ""
  isNL : Bool := false
  resultCount : Nat := 0
  results : Option SearchResult := none
  yesNoAnswer : String := ""
  countAnswer : String := ""
  directAnswer : String := ""
  translatorUsed : String := ""
  mode : String := ""
  note : String := ""
  semanticResults : Option (List SemanticSearchResultV2) := none
  semanticResultCount : Option Nat := none
  enhanced : Bool := false
  deriving DecidableEq

/-- Outcome of the translation stage: either the values flowing into the
search phase, or the text of an early-returned direct answer. -/
inductive TransStage where
  | proceed (zoektQuery : String) (intent : Intent) (queryType translatorUsed : String)
      (isNL : Bool)
  | directAnswer (da : String)
  deriving DecidableEq

/-- The basic-translator fallback path shared by the three fallback sites
(lines 654-667, 671-685, 686-699). -/
def basicOutcome (nlQuery : String) : TransStage :=
  let p := BasicTranslator.Translate nlQuery
  TransStage.proceed p.1
    { Typ := p.2, Entity := "", Topic := "", Confidence := 7 / 10, Query := p.1, Variations := [] }
    p.2 "basic" true

/-- The translation stage of `HandleSearch` (lines 643-744): direct mode,
OpenRouter (with fallback to the basic translator on error or empty query),
and the `DIRECT_ANSWER:` early return.  The second component records
whether `TranslateWithOpenRouter` was called. -/
def translationStage (env : Env) (nlQuery : String) (direct : Bool) : TransStage × Bool :=
  if direct then
    (TransStage.proceed nlQuery
      { Typ := "search", Entity := "", Topic := "", Confidence := 1, Query := nlQuery,
        Variations := [] }
      "search" "direct" false, false)
  else if env.openRouterEnabled = false then
    (basicOutcome nlQuery, false)
  else
    match env.translate with
    | .error _ => (basicOutcome nlQuery, true)
    | .ok (zq, it) =>
      if zq = "" then (basicOutcome nlQuery, true)
      else if goStartsWith zq "DIRECT_ANSWER:" then
        (TransStage.directAnswer (strDrop zq 14), true)
      else (TransStage.proceed zq it it.Typ "openrouter" true, true)

/-- The semantic retrieval block (lines 746-761): results are non-empty only
when the service exists, the mode asks for semantic retrieval, the store is
indexed and the search call succeeds. -/
def semanticPhaseResults (env : Env) (searchMode : String) : List SemanticSearchResultV2 :=
  if env.semanticAvailable = true ∧ (searchMode = "semantic" ∨ searchMode = "hybrid") then
    if env.isIndexed = true then
      match env.semanticSearchOutcome with
      | .ok rs => rs
      | .error _ => []
    else []
  else []

/-- Whether the semantic `Search` call happens (inside the same block). -/
def semanticQueriedFlag (env : Env) (searchMode : String) : Bool :=
  env.semanticAvailable && (searchMode == "semantic" || searchMode == "hybrid") && env.isIndexed

/-- Total line matches over all files of the keyword result (the `count`
accumulation of lines 829-835; a nil `LineMatches` slice contributes 0 like
the Go nil check). -/
def kwLineMatchTotal (env : Env) : Nat :=
  match env.keywordSearchResult with
  | some r => (r.Files.map fun f => f.LineMatches.length).sum
  | none => 0

/-- Number of files of the keyword result (`len(result.Files)`; 0 for a nil
result). -/
def kwFileCount (env : Env) : Nat :=
  match env.keywordSearchResult with
  | some r => r.Files.length
  | none => 0

/-- The keyword-search phase (lines 813-923): execute the search, apply the
`count`/`yesno` post-processing, and assemble the final response including
the fused semantic results in hybrid mode. -/
def keywordPhase (env : Env) (nlQuery searchMode zq qt tu : String) (inl llmc semQ : Bool)
    (semRes : List SemanticSearchResultV2) : Response × Trace :=
  let result := env.keywordSearchResult
  let filesCount := kwFileCount env
  let lineMatchCount := if qt = "count" then kwLineMatchTotal env else 0
  let resultCount := if qt = "count" ∧ 0 < lineMatchCount then lineMatchCount else filesCount
  let snippets := match result with
    | some r => extractAnswerSnippetsV2 r 3
    | none => []
  let answerCalled : Bool := qt == "yesno" && decide (0 < resultCount) && decide (0 < snippets.length)
  let directAnswer := if answerCalled = true ∧ env.answerFromSnippets ≠ "" then
      env.answerFromSnippets
    else ""
  let yesNoAnswer :=
    if qt = "yesno" then
      if directAnswer ≠ "" then directAnswer
      else if 0 < resultCount then "✅ YES, found " ++ toString resultCount ++ " result(s)."
      else "❌ NO, no results found."
    else ""
  let countAnswer :=
    if qt = "count" then
      if 0 < lineMatchCount then "Found " ++ toString lineMatchCount ++ " item(s)."
      else if 0 < resultCount then "Found " ++ toString resultCount ++ " file(s)."
      else "Found 0 items."
    else ""
  let base : Response :=
    { status := 200, originalQuery := nlQuery, translatedQuery := zq, queryType := qt,
      isNL := inl, success := env.keywordSearchErr.isNone, resultCount := resultCount,
      results := result, yesNoAnswer := yesNoAnswer, countAnswer := countAnswer,
      directAnswer := directAnswer, translatorUsed := tu, mode := searchMode,
      error := match env.keywordSearchErr with | some e => e | none => "" }
  let resp :=
    match result with
    | some r =>
      if searchMode = "hybrid" ∧ 0 < semRes.length then
        { base with
          semanticResults := some (enhanceSemanticWithZoekt semRes r),
          semanticResultCount := some (enhanceSemanticWithZoekt semRes r).length,
          enhanced := true }
      else if 0 < semRes.length then
        { base with semanticResults := some semRes, semanticResultCount := some semRes.length }
      else base
    | none =>
      if 0 < semRes.length then
        { base with semanticResults := some semRes, semanticResultCount := some semRes.length }
      else base
  (resp, ⟨llmc, semQ, true, answerCalled⟩)

/-- The post-translation phase (lines 746-923): semantic retrieval, the
semantic-only early return, the parse of the generated query with its
semantic fallback / structured parse error, then the keyword phase. -/
def servePhase (env : Env) (nlQuery searchMode zq qt tu : String) (inl llmc : Bool) :
    Response × Trace :=
  let semRes := semanticPhaseResults env searchMode
  let semQ := semanticQueriedFlag env searchMode
  if searchMode = "semantic" ∧ 0 < semRes.length then
    ({ status := 200, originalQuery := nlQuery, queryType := "semantic", isNL := true,
       success := true, resultCount := semRes.length, semanticResults := some semRes,
       mode := "semantic" },
     ⟨llmc, semQ, false, false⟩)
  else if env.parseOk zq = false then
    if 0 < semRes.length then
      ({ status := 200, originalQuery := nlQuery, queryType := "semantic", isNL := true,
         success := true, resultCount := semRes.length, semanticResults := some semRes,
         mode := "hybrid", note := "Keyword query failed, using semantic results" },
       ⟨llmc, semQ, false, false⟩)
    else
      ({ status := 400, success := false, error := "Query parse error",
         originalQuery := nlQuery, translatedQuery := zq },
       ⟨llmc, semQ, false, false⟩)
  else keywordPhase env nlQuery searchMode zq qt tu inl llmc semQ semRes

/-- `HandleSearch` of the hybrid server (part_002, lines 611-924), as a pure
function of the oracle environment and the request parameters `q`, `mode`
and `direct`. -/
def handleSearch (env : Env) (nlQuery modeParam : String) (direct : Bool) : Response × Trace :=
  if nlQuery = "" then
    ({ status := 400, success := false, error := "Missing query parameter q" },
     ⟨false, false, false, false⟩)
  else
    let searchMode := if modeParam = "" then "hybrid" else modeParam
    match translationStage env nlQuery direct with
    | (TransStage.directAnswer da, llmc) =>
      ({ status := 200, originalQuery := nlQuery, translatedQuery := "",
         queryType := "answer", isNL := true, success := true, resultCount := 0,
         yesNoAnswer := da, countAnswer := "", directAnswer := da,
         translatorUsed := "openrouter" },
       ⟨llmc, false, false, false⟩)
    | (TransStage.proceed zq _ qt tu inl, llmc) =>
      servePhase env nlQuery searchMode zq qt tu inl llmc

/-! ## Concrete example inputs used by scenario conjuncts, counterexamples
and witnesses -/

/-- A semantic chunk living in the given file. -/
def exChunk (id fileName : String) : SemanticCodeChunk :=
  ⟨id, "some code", fileName, 1, 10, "function", "python"⟩

/-- A semantic result with the given score and similarity. -/
def exSem (id fileName : String) (score : ℚ) : SemanticSearchResultV2 :=
  ⟨exChunk id fileName, score, score⟩

/-- A keyword result matching only `a.py`. -/
def exKwA : SearchResult := ⟨[⟨"a.py", "repo", [], ""⟩]⟩

/-- An empty keyword result. -/
def exKwEmpty : SearchResult := ⟨[]⟩

/-- The spec scenario input: pre-fusion score 0.9 on file `a.py`. -/
def exSemA09 : SemanticSearchResultV2 := exSem "a" "a.py" (9 / 10)

/-- Out-of-range pre-fusion input (score and similarity 2) on a file without
keyword matches. -/
def exC2Bad : SemanticSearchResultV2 := exSem "bad" "b.py" 2

/-- An in-range input on a keyword-matched file. -/
def exC2Good : SemanticSearchResultV2 := exSem "good" "a.py" 1

/-- Four semantic results on unmatched files with scores 5, 1, 5, 9: the
exchange sort moves `x3` (score 5) in front of `x1` (score 5). -/
def exC3In : List SemanticSearchResultV2 :=
  [exSem "x1" "f1" 5, exSem "x2" "f2" 1, exSem "x3" "f3" 5, exSem "x4" "f4" 9]

/-- An intent value as OpenRouter would return for a plain search. -/
def exIntentSearch : Intent := ⟨"search", "", "", 1, "foo", []⟩

/-- Environment: OpenRouter enabled and succeeding, semantic service up but
store unindexed, parser accepting, keyword search finding one file. -/
def exEnvSemUnindexed : Env :=
  { openRouterEnabled := true, translate := .ok ("foo", exIntentSearch),
    semanticAvailable := true, isIndexed := false, semanticSearchOutcome := .ok [],
    parseOk := fun _ => true,
    keywordSearchResult := some ⟨[⟨"f.go", "repo", [], ""⟩]⟩, keywordSearchErr := none,
    answerFromSnippets := "" }

/-- Environment: translation succeeds, semantic search returns one result,
the generated query fails to parse. -/
def exEnvParseFail : Env :=
  { openRouterEnabled := true, translate := .ok ("bad(", exIntentSearch),
    semanticAvailable := true, isIndexed := true,
    semanticSearchOutcome := .ok [exSem "c1" "a.py" 1],
    parseOk := fun _ => false,
    keywordSearchResult := none, keywordSearchErr := none, answerFromSnippets := "" }

/-- Environment: OpenRouter disabled (so the basic translator classifies the
request), parser accepting, keyword search finding one file with two line
matches. -/
def exEnvCount : Env :=
  { openRouterEnabled := false, translate := .error (),
    semanticAvailable := false, isIndexed := false, semanticSearchOutcome := .ok [],
    parseOk := fun _ => true,
    keywordSearchResult := some ⟨[⟨"blogs.js", "repo", [⟨"t1", "", "", 3⟩, ⟨"t2", "", "", 7⟩], ""⟩]⟩,
    keywordSearchErr := none, answerFromSnippets := "" }

/-! ## Helper lemmas: the exchange sort -/

theorem selectMax_snd_length (x : SemanticSearchResultV2) (l : List SemanticSearchResultV2) :
    (selectMax x l).2.length = l.length := by
  induction l generalizing x with
  | nil => simp [selectMax]
  | cons y ys ih =>
    simp only [selectMax]
    split
    · simp [ih]
    · simp [ih]

theorem selectMax_fst_score (x : SemanticSearchResultV2) (l : List SemanticSearchResultV2) :
    x.Score ≤ (selectMax x l).1.Score := by
  induction l generalizing x with
  | nil => simp [selectMax]
  | cons y ys ih =>
    simp only [selectMax]
    split
    · next h => exact le_trans (le_of_lt h) (ih y)
    · exact ih x

theorem selectMax_snd_score (x : SemanticSearchResultV2) (l : List SemanticSearchResultV2) :
    ∀ r ∈ (selectMax x l).2, r.Score ≤ (selectMax x l).1.Score := by
  induction l generalizing x with
  | nil => simp [selectMax]
  | cons y ys ih =>
    simp only [selectMax]
    split
    · next h =>
      intro r hr
      rcases List.mem_cons.mp hr with h1 | h2
      · subst h1; exact le_trans (le_of_lt h) (selectMax_fst_score y ys)
      · exact ih y r h2
    · next h =>
      intro r hr
      rcases List.mem_cons.mp hr with h1 | h2
      · subst h1; exact le_trans (not_lt.mp h) (selectMax_fst_score x ys)
      · exact ih x r h2

theorem selectMax_perm (x : SemanticSearchResultV2) (l : List SemanticSearchResultV2) :
    ((selectMax x l).1 :: (selectMax x l).2).Perm (x :: l) := by
  induction l generalizing x with
  | nil => simp [selectMax]
  | cons y ys ih =>
    simp only [selectMax]
    split
    · exact (List.Perm.swap x (selectMax y ys).1 (selectMax y ys).2).trans ((ih y).cons x)
    · exact (List.Perm.swap y (selectMax x ys).1 (selectMax x ys).2).trans
        (((ih x).cons y).trans (List.Perm.swap x y ys))

theorem exchangeSortAux_perm (n : Nat) (l : List SemanticSearchResultV2)
    (h : l.length ≤ n) : (exchangeSortAux n l).Perm l := by
  induction n generalizing l with
  | zero => simp [exchangeSortAux]
  | succ n ih =>
    cases l with
    | nil => simp [exchangeSortAux]
    | cons x xs =>
      simp only [exchangeSortAux]
      have hlen : (selectMax x xs).2.length ≤ n := by
        rw [selectMax_snd_length]
        simpa using Nat.lt_succ_iff.mp (Nat.lt_of_lt_of_le (by simp) h)
      exact ((ih _ hlen).cons (selectMax x xs).1).trans (selectMax_perm x xs)

theorem exchangeSortAux_sorted (n : Nat) (l : List SemanticSearchResultV2)
    (h : l.length ≤ n) :
    List.Pairwise (fun a b => b.Score ≤ a.Score) (exchangeSortAux n l) := by
  induction n generalizing l with
  | zero =>
    have : l = [] := List.length_eq_zero.mp (Nat.le_zero.mp h)
    simp [this, exchangeSortAux]
  | succ n ih =>
    cases l with
    | nil => simp [exchangeSortAux]
    | cons x xs =>
      simp only [exchangeSortAux]
      have hlen : (selectMax x xs).2.length ≤ n := by
        rw [selectMax_snd_length]
        simpa using Nat.lt_succ_iff.mp (Nat.lt_of_lt_of_le (by simp) h)
      refine List.Pairwise.cons (fun r hr => ?_) (ih _ hlen)
      have hr' : r ∈ (selectMax x xs).2 := (exchangeSortAux_perm n _ hlen).subset hr
      exact selectMax_snd_score x xs r hr'

theorem exchangeSort_perm (l : List SemanticSearchResultV2) : (exchangeSort l).Perm l :=
  exchangeSortAux_perm l.length l le_rfl

theorem exchangeSort_sorted (l : List SemanticSearchResultV2) :
    List.Pairwise (fun a b => b.Score ≤ a.Score) (exchangeSort l) :=
  exchangeSortAux_sorted l.length l le_rfl

/-! ## Helper lemmas: the boost step -/

theorem boostResult_chunk (files : List FileMatch) (r : SemanticSearchResultV2) :
    (boostResult files r).Chunk = r.Chunk := by
  unfold boostResult; split <;> rfl

/-- The source's multiply-then-clamp equals the spec's `min` formulation. -/
theorem clamp_eq_min (a : ℚ) : (if 1 < a then 1 else a) = min 1 a := by
  rw [min_def]
  by_cases h : 1 < a
  · simp [h, le_of_lt h]
  · by_cases h2 : (1 : ℚ) ≤ a
    · simp [h, h2]; linarith
    · simp [h, h2]

theorem boostResult_eq_spec (files : List FileMatch) (r : SemanticSearchResultV2) :
    boostResult files r = specFusionBoost files r := by
  unfold boostResult specFusionBoost
  split
  · simp only [clamp_eq_min]
  · rfl

theorem boostResult_bounds (files : List FileMatch) (r : SemanticSearchResultV2)
    (hs0 : 0 ≤ r.Score) (hs1 : r.Score ≤ 1) (hm0 : 0 ≤ r.Similarity) (hm1 : r.Similarity ≤ 1) :
    0 ≤ (boostResult files r).Score ∧ (boostResult files r).Score ≤ 1 ∧
      0 ≤ (boostResult files r).Similarity ∧ (boostResult files r).Similarity ≤ 1 := by
  rw [boostResult_eq_spec]
  unfold specFusionBoost
  split
  · exact ⟨le_min (by norm_num) (by positivity), min_le_left _ _,
      le_min (by norm_num) (by positivity), min_le_left _ _⟩
  · exact ⟨hs0, hs1, hm0, hm1⟩

/-! ## Claims C1, C2, C3, C10: the fusion step -/

/-- Claim C1: for every fusion run (`enhanceSemanticWithZoekt` on a semantic
result list and a keyword result), each semantic match whose file name
appears among the keyword-matched files gets post-fusion score
`min 1 (1.3 * score)` and post-fusion similarity `min 1 (1.2 * similarity)`,
and every other semantic match keeps both unchanged — i.e. the fused output
is a reordering of the input list mapped through exactly that per-element
formula; in particular, the spec scenario: a pre-fusion score of 0.9 on file
`a.py`, which also has a keyword match, becomes exactly 1. -/
theorem C1_fusion_boost_formula (sem : List SemanticSearchResultV2) (kw : SearchResult) :
    (enhanceSemanticWithZoekt sem kw).Perm (sem.map (specFusionBoost kw.Files)) ∧
      (enhanceSemanticWithZoekt [exSemA09] exKwA).map (fun r => r.Score) = [1] := by
  constructor
  · have hf : boostResult kw.Files = specFusionBoost kw.Files :=
      funext (boostResult_eq_spec kw.Files)
    show (exchangeSort (sem.map (boostResult kw.Files))).Perm (sem.map (specFusionBoost kw.Files))
    rw [hf]
    exact exchangeSort_perm _
  · norm_num [enhanceSemanticWithZoekt, exchangeSort, exchangeSortAux, selectMax, boostResult,
      zoektHasFile, exSemA09, exSem, exChunk, exKwA]

/-- Counterexample for C2: the fusion step does not clamp results whose file
has no keyword match — a pre-fusion score/similarity of 2 passes through
unchanged, so post-fusion values are not in `[0, 1]` regardless of
pre-fusion values. -/
theorem C2_cex :
    ¬ (∀ r ∈ enhanceSemanticWithZoekt [exC2Bad] exKwEmpty,
        0 ≤ r.Score ∧ r.Score ≤ 1 ∧ 0 ≤ r.Similarity ∧ r.Similarity ≤ 1) := by decide

/-- Claim C2 (amended): whenever every pre-fusion score and similarity lies
in `[0, 1]` — as the semantic backend guarantees for the values it produces
— every post-fusion score and similarity also lies in `[0, 1]`. -/
theorem C2_fusion_bounds (sem : List SemanticSearchResultV2) (kw : SearchResult)
    (h : ∀ r ∈ sem, 0 ≤ r.Score ∧ r.Score ≤ 1 ∧ 0 ≤ r.Similarity ∧ r.Similarity ≤ 1) :
    ∀ r ∈ enhanceSemanticWithZoekt sem kw,
      0 ≤ r.Score ∧ r.Score ≤ 1 ∧ 0 ≤ r.Similarity ∧ r.Similarity ≤ 1 := by
  intro r hr
  have hr2 : r ∈ sem.map (boostResult kw.Files) := (exchangeSort_perm _).subset hr
  obtain ⟨r0, hr0, rfl⟩ := List.mem_map.mp hr2
  obtain ⟨a, b, c, d⟩ := h r0 hr0
  exact boostResult_bounds kw.Files r0 a b c d

/-- Witness for C2 (amended): a concrete in-range input on a
keyword-matched file stays in range after fusion. -/
theorem C2_fusion_bounds_witness :
    (∀ r ∈ [exC2Good], 0 ≤ r.Score ∧ r.Score ≤ 1 ∧ 0 ≤ r.Similarity ∧ r.Similarity ≤ 1) ∧
      (∀ r ∈ enhanceSemanticWithZoekt [exC2Good] exKwA,
        0 ≤ r.Score ∧ r.Score ≤ 1 ∧ 0 ≤ r.Similarity ∧ r.Similarity ≤ 1) :=
  ⟨by decide, C2_fusion_bounds [exC2Good] exKwA (by decide)⟩

/-- Counterexample for C3: the re-ranking loop is an exchange sort, not a
stable sort.  On four unmatched results with scores 5, 1, 5, 9 the fused
order is `x4, x3, x1, x2` while a stable descending sort keeps the two
score-5 entries in input order (`x4, x1, x3, x2`). -/
theorem C3_cex :
    (enhanceSemanticWithZoekt exC3In exKwEmpty).map (fun r => r.Chunk.ID)
        = ["x4", "x3", "x1", "x2"] ∧
      (stableSortDesc (exC3In.map (boostResult exKwEmpty.Files))).map (fun r => r.Chunk.ID)
        = ["x4", "x1", "x3", "x2"] ∧
      enhanceSemanticWithZoekt exC3In exKwEmpty
        ≠ stableSortDesc (exC3In.map (boostResult exKwEmpty.Files)) := by decide

/-- Claim C3 (amended): the fused list is sorted by non-increasing
post-fusion score; however the re-ranking is an exchange sort, which does
not in general preserve the input order of equal-score matches. -/
theorem C3_fusion_sorted (sem : List SemanticSearchResultV2) (kw : SearchResult) :
    List.Pairwise (fun a b => b.Score ≤ a.Score) (enhanceSemanticWithZoekt sem kw) :=
  exchangeSort_sorted _

/-- Claim C10: fusion never adds or drops results — the fused list has the
same length as the semantic input, and the multiset of chunks (carrying
chunk ID, content, file name, line range, chunk type and language — every
field other than `Score`/`Similarity`) is exactly that of the input. -/
theorem C10_fusion_frame (sem : List SemanticSearchResultV2) (kw : SearchResult) :
    (enhanceSemanticWithZoekt sem kw).length = sem.length ∧
      ((enhanceSemanticWithZoekt sem kw).map (fun r => r.Chunk)).Perm
        (sem.map (fun r => r.Chunk)) := by
  have hperm : (enhanceSemanticWithZoekt sem kw).Perm (sem.map (boostResult kw.Files)) :=
    exchangeSort_perm _
  constructor
  · rw [hperm.length_eq, List.length_map]
  · have h1 := hperm.map (fun r => r.Chunk)
    rw [List.map_map] at h1
    have h2 : ((fun r => r.Chunk) ∘ boostResult kw.Files)
        = fun r : SemanticSearchResultV2 => r.Chunk :=
      funext fun r => boostResult_chunk kw.Files r
    rwa [h2] at h1

/-! ## Claim C4: totality of the Pattern Translator -/

/-- Counterexample for C4: on the empty input — and on input that trims to
empty — the Pattern Translator returns the *empty* query (with intent
`search`), contradicting the claimed non-empty query. -/
theorem C4_cex :
    (BasicTranslator.Translate "").1 = "" ∧ (BasicTranslator.Translate "   ").1 = "" ∧
      (BasicTranslator.Translate "").2 = "search" := by decide

/-- Claim C4 (amended): for every input string `BasicTranslator.Translate`
terminates (it is a total Lean function) and returns one of the five
defined intent types; when none of its lexical patterns matches, it returns
the trimmed original text with intent `search`.  (The non-emptiness part of
the claim is dropped: the returned query is empty for inputs that trim to
empty, see the counterexample.) -/
theorem C4_translator_total (s : String) :
    ((BasicTranslator.Translate s).2 = "search" ∨ (BasicTranslator.Translate s).2 = "count" ∨
      (BasicTranslator.Translate s).2 = "list" ∨ (BasicTranslator.Translate s).2 = "find" ∨
      (BasicTranslator.Translate s).2 = "yesno") ∧
    ((goContains (goToLower (goTrim s)) "how many"
        && (goContains (goToLower (goTrim s)) "article"
            || goContains (goToLower (goTrim s)) "blog")) = false →
      (goContains (goToLower (goTrim s)) "list"
        && (goContains (goToLower (goTrim s)) "article"
            || goContains (goToLower (goTrim s)) "blog")) = false →
      (goContains (goToLower (goTrim s)) "find"
        && goContains (goToLower (goTrim s)) "article") = false →
      ((goContains (goToLower (goTrim s)) "have"
          || goContains (goToLower (goTrim s)) "written about")
        && goContains (goToLower (goTrim s)) "about") = false →
      BasicTranslator.Translate s = (goTrim s, "search")) := by
  constructor
  · simp only [BasicTranslator.Translate]
    repeat' split
    all_goals first
      | exact Or.inl rfl
      | exact Or.inr (Or.inl rfl)
      | exact Or.inr (Or.inr (Or.inl rfl))
      | exact Or.inr (Or.inr (Or.inr (Or.inl rfl)))
      | exact Or.inr (Or.inr (Or.inr (Or.inr rfl)))
  · intro h1 h2 h3 h4
    simp only [BasicTranslator.Translate, h1, h2, h3, h4, Bool.false_eq_true, if_false]

/-- Witness for C4 (amended): on `"hello world"` no pattern matches and the
translator returns the trimmed input with intent `search`. -/
theorem C4_translator_total_witness :
    BasicTranslator.Translate "hello world" = (goTrim "hello world", "search") :=
  (C4_translator_total "hello world").2 (by decide) (by decide) (by decide) (by decide)

/-! ## Claim C8: the quote-balance repairs -/

/-- Counterexample for C8: the input query has balanced quotes (an even
quote count), yet one application of `validateAndFixQuery`'s quote repair
changes it, and a second application changes it again — the repair is
neither a no-op on balanced queries nor idempotent. -/
theorem C8_cex :
    goCountChar "\"a\" \"b file:\"abc file:" '\"' % 2 = 0 ∧
      fixQueryQuotes "\"a\" \"b file:\"abc file:" ≠ "\"a\" \"b file:\"abc file:" ∧
      fixQueryQuotes (fixQueryQuotes "\"a\" \"b file:\"abc file:")
        ≠ fixQueryQuotes "\"a\" \"b file:\"abc file:" := by decide

/-- Claim C8 (amended): the quote-balance repair is deterministic and
append-only — `validateAndFixQuery`'s quote fix returns its input either
unchanged or with one or two closing quotes appended — and both it and the
inline `file:"` segment repair are no-ops (hence idempotent) on every query
containing neither a `content:"` nor a `file:"` marker.  On queries with
such markers the repair can change an already-balanced query, and a second
application can append a further quote (see the counterexample). -/
theorem C8_repair_append_only (q : String) :
    (fixQueryQuotes q = q ∨ fixQueryQuotes q = q ++ "\"" ∨ fixQueryQuotes q = q ++ "\"\"") ∧
    (goContains q "content:\"" = false → goContains q "file:\"" = false →
      fixQueryQuotes q = q ∧ fixFileSegments q = q) := by
  constructor
  · simp only [fixQueryQuotes]
    split
    · split
      · right; right; rw [String.append_assoc]; rfl
      · right; left; rfl
    · split
      · right; left; rfl
      · left; rfl
  · intro h1 h2
    constructor
    · simp only [fixQueryQuotes, h1, h2, Bool.false_and, Bool.false_eq_true, if_false]
    · simp only [fixFileSegments, h2, Bool.false_eq_true, if_false]

/-- Witness for C8 (amended): on a query with no field markers both repairs
are no-ops. -/
theorem C8_repair_append_only_witness :
    fixQueryQuotes "hello world" = "hello world" ∧ fixFileSegments "hello world" = "hello world" :=
  (C8_repair_append_only "hello world").2 (by decide) (by decide)

/-! ## Helper lemmas: the handler -/

theorem semanticPhaseResults_unindexed (env : Env) (m : String) (hi : env.isIndexed = false) :
    semanticPhaseResults env m = [] := by
  unfold semanticPhaseResults
  split
  · simp [hi]
  · rfl

theorem semanticQueriedFlag_unindexed (env : Env) (m : String) (hi : env.isIndexed = false) :
    semanticQueriedFlag env m = false := by
  unfold semanticQueriedFlag
  simp [hi]

theorem keywordPhase_no_sem (env : Env) (nlQuery searchMode zq qt tu : String)
    (inl llmc semQ : Bool) :
    (keywordPhase env nlQuery searchMode zq qt tu inl llmc semQ []).1.semanticResults = none ∧
      (keywordPhase env nlQuery searchMode zq qt tu inl llmc semQ []).2.semanticQueried = semQ := by
  simp only [keywordPhase]
  rcases henv : env.keywordSearchResult with _ | r <;>
    simp only [henv, List.length_nil, lt_self_iff_false, and_false, if_false] <;>
    exact ⟨by trivial, by trivial⟩

/-! ## Helper lemmas: the budgeted snippet extractor -/

theorem foldl_inv {α β : Type} (P : β → Prop) (f : β → α → β)
    (hstep : ∀ b a, P b → P (f b a)) : ∀ (l : List α) (b : β), P b → P (l.foldl f b)
  | [], _, hb => hb
  | a :: l, b, hb => foldl_inv P f hstep l (f b a) (hstep b a hb)

/-- The per-file extraction-state invariant: both budgets respected and no
out-of-bounds access recorded. -/
def ExtInv (lpf : Nat) (st : ExtSt) : Prop :=
  st.totalLines ≤ targetLinesTotal ∧ st.fileLines ≤ lpf ∧ st.oob = false

theorem pushLine_fileLines (st : ExtSt) (line : String) :
    (pushLine st line).fileLines = st.fileLines + 1 := rfl

theorem pushLine_totalLines (st : ExtSt) (line : String) :
    (pushLine st line).totalLines = st.totalLines + 1 := rfl

theorem pushLine_oob (st : ExtSt) (line : String) : (pushLine st line).oob = st.oob := rfl

theorem windowLoop_inv (allLines : List String) (lpf : Nat) (lineNum endLine : Int)
    (hEnd : endLine ≤ (allLines.length : Int)) :
    ∀ (k : Nat) (i : Int) (st : ExtSt), 0 ≤ i → ExtInv lpf st →
      ExtInv lpf (windowLoop allLines lpf lineNum endLine k i st) := by
  intro k
  induction k with
  | zero => intro i st _ hst; exact hst
  | succ k ih =>
    intro i st h0 hst
    obtain ⟨h1, h2, h3⟩ := hst
    simp only [windowLoop]
    split
    · next hG =>
      obtain ⟨hGe, hGf, hGt⟩ := hG
      have hok : idxOk allLines.length i = true := by
        simp only [idxOk, Bool.and_eq_true, decide_eq_true_eq]
        exact ⟨h0, lt_of_lt_of_le hGe hEnd⟩
      refine ih (i + 1) _ (by omega) ?_
      refine ⟨?_, ?_, ?_⟩
      · split
        · simp only [pushLine_totalLines]; omega
        · exact h1
      · split
        · simp only [pushLine_fileLines]; omega
        · exact h2
      · split
        · simp only [pushLine_oob, h3, hok, Bool.not_true, Bool.or_false]
        · simp only [h3, hok, Bool.not_true, Bool.or_false]
    · exact ⟨h1, h2, h3⟩

theorem firstLinesLoop_inv (allLines : List String) (extractCount : Nat)
    (hEC : extractCount ≤ allLines.length) :
    ∀ (k : Nat) (i : Nat) (st : ExtSt),
      st.totalLines ≤ targetLinesTotal → st.oob = false →
      (firstLinesLoop allLines extractCount k i st).totalLines ≤ targetLinesTotal ∧
        (firstLinesLoop allLines extractCount k i st).oob = false ∧
        (firstLinesLoop allLines extractCount k i st).fileLines ≤ st.fileLines + k := by
  intro k
  induction k with
  | zero => intro i st h1 h3; exact ⟨h1, h3, Nat.le_refl _⟩
  | succ k ih =>
    intro i st h1 h3
    simp only [firstLinesLoop]
    split
    · next hG =>
      obtain ⟨hGi, hGt⟩ := hG
      have hok : idxOk allLines.length (i : Int) = true := by
        simp only [idxOk, Bool.and_eq_true, decide_eq_true_eq]
        constructor
        · exact Int.ofNat_nonneg i
        · exact_mod_cast Nat.lt_of_lt_of_le hGi hEC
      obtain ⟨g1, g2, g3⟩ := ih (i + 1)
        (pushLine { st with oob := st.oob || !idxOk allLines.length (i : Int) }
          (goTrimRightNL (lineAt allLines (i : Int))))
        (by simp only [pushLine_totalLines]; omega)
        (by simp only [pushLine_oob, h3, hok, Bool.not_true, Bool.or_false])
      refine ⟨g1, g2, ?_⟩
      calc _ ≤ _ := g3
        _ ≤ st.fileLines + (k + 1) := by simp only [pushLine_fileLines]; omega
    · exact ⟨h1, h3, Nat.le_add_right _ _⟩

theorem blobLineStep_inv (lpf : Nat) (st : ExtSt) (rawLine : String) (h : ExtInv lpf st) :
    ExtInv lpf (blobLineStep lpf st rawLine) := by
  obtain ⟨h1, h2, h3⟩ := h
  simp only [blobLineStep]
  split
  · next hG =>
    split
    · exact ⟨by simp only [pushLine_totalLines]; omega,
        by simp only [pushLine_fileLines]; omega,
        by simp only [pushLine_oob, h3]⟩
    · exact ⟨h1, h2, h3⟩
  · exact ⟨h1, h2, h3⟩

theorem method2MatchStep_inv (lpf : Nat) (st : ExtSt) (m : LineMatch) (h : ExtInv lpf st) :
    ExtInv lpf (method2MatchStep lpf st m) := by
  simp only [method2MatchStep]
  split
  · exact h
  · have h1 : ExtInv lpf (if m.Before ≠ "" then
        (goSplit m.Before "\n").foldl (blobLineStep lpf) st else st) := by
      split
      · exact foldl_inv (ExtInv lpf) (blobLineStep lpf) (blobLineStep_inv lpf) _ st h
      · exact h
    set st1 := if m.Before ≠ "" then (goSplit m.Before "\n").foldl (blobLineStep lpf) st else st
    have h2 : ExtInv lpf (if st1.fileLines < lpf ∧ st1.totalLines < targetLinesTotal then
        (if goTrim m.Line ≠ "" then pushLine st1 (goTrim m.Line) else st1) else st1) := by
      split
      · next hG =>
        split
        · exact ⟨by simp only [pushLine_totalLines]; omega,
            by simp only [pushLine_fileLines]; omega,
            by simp only [pushLine_oob]; exact h1.2.2⟩
        · exact h1
      · exact h1
    set st2 := if st1.fileLines < lpf ∧ st1.totalLines < targetLinesTotal then
        (if goTrim m.Line ≠ "" then pushLine st1 (goTrim m.Line) else st1) else st1
    split
    · exact foldl_inv (ExtInv lpf) (blobLineStep lpf) (blobLineStep_inv lpf) _ st2 h2
    · exact h2

theorem method1MatchStep_inv (allLines : List String) (lpf : Nat) (st : ExtSt)
    (m : LineMatch) (h : ExtInv lpf st) : ExtInv lpf (method1MatchStep allLines lpf st m) := by
  simp only [method1MatchStep]
  split
  · exact h
  · apply windowLoop_inv
    · split
      · exact le_refl _
      · next hc => exact le_of_not_lt hc
    · split
      · exact le_refl 0
      · next hc => omega
    · exact h

theorem fileStep_inv (lpf maxFiles : Nat) (acc : ExtAcc) (file : FileMatch)
    (h : acc.totalLines ≤ targetLinesTotal ∧ acc.oob = false ∧ acc.count ≤ maxFiles ∧
      ∀ n ∈ acc.perFile, n ≤ lpf) :
    (fileStep lpf maxFiles acc file).totalLines ≤ targetLinesTotal ∧
      (fileStep lpf maxFiles acc file).oob = false ∧
      (fileStep lpf maxFiles acc file).count ≤ maxFiles ∧
      ∀ n ∈ (fileStep lpf maxFiles acc file).perFile, n ≤ lpf := by
  obtain ⟨h1, h2, h3, h4⟩ := h
  simp only [fileStep]
  split
  · exact ⟨h1, h2, h3, h4⟩
  · next hG =>
    have hcount : acc.count < maxFiles := by
      rcases Nat.lt_or_ge acc.count maxFiles with hlt | hge
      · exact hlt
      · exact absurd (Or.inl hge) hG
    have hst0 : ExtInv lpf (⟨0, acc.totalLines,
        "File: " ++ file.FileName ++ "\n" ++ "Repository: " ++ file.Repository ++ "\n\n",
        acc.oob⟩ : ExtSt) := ⟨h1, Nat.zero_le _, h2⟩
    set st0 : ExtSt := ⟨0, acc.totalLines,
      "File: " ++ file.FileName ++ "\n" ++ "Repository: " ++ file.Repository ++ "\n\n",
      acc.oob⟩ with hst0def
    have hfin : ExtInv lpf (if file.Content ≠ "" then
        (let allLines := goSplit file.Content "\n"
         if file.LineMatches.length > 0 then
           file.LineMatches.foldl (method1MatchStep allLines lpf) st0
         else
           let extractCount := if allLines.length < lpf then allLines.length else lpf
           firstLinesLoop allLines extractCount extractCount 0 st0)
        else if file.LineMatches.length > 0 then
          file.LineMatches.foldl (method2MatchStep lpf) st0
        else st0) := by
      split
      · split
        · exact foldl_inv (ExtInv lpf) (method1MatchStep (goSplit file.Content "\n") lpf)
            (method1MatchStep_inv (goSplit file.Content "\n") lpf) _ st0 hst0
        · have hEC : (if (goSplit file.Content "\n").length < lpf then
              (goSplit file.Content "\n").length else lpf) ≤ (goSplit file.Content "\n").length := by
            split
            · exact le_refl _
            · next hc => exact le_of_not_lt hc
          have hECl : (if (goSplit file.Content "\n").length < lpf then
              (goSplit file.Content "\n").length else lpf) ≤ lpf := by
            split
            · next hc => exact le_of_lt hc
            · exact le_refl _
          obtain ⟨g1, g2, g3⟩ := firstLinesLoop_inv (goSplit file.Content "\n") _ hEC _ 0 st0
            hst0.1 hst0.2.2
          exact ⟨g1, by simpa using le_trans g3 (by simpa using hECl), g2⟩
      · split
        · exact foldl_inv (ExtInv lpf) (method2MatchStep lpf)
            (method2MatchStep_inv lpf) _ st0 hst0
        · exact hst0
    refine ⟨hfin.1, hfin.2.2, show acc.count + 1 ≤ maxFiles by omega, ?_⟩
    intro n hn
    rcases List.mem_append.mp hn with hn1 | hn2
    · exact h4 n hn1
    · rw [List.mem_singleton.mp hn2]
      exact hfin.2.1

/-! ## Claims C5, C6, C7: the search handler -/

/-- Counterexample for C5: a `mode=semantic` request against an unindexed
vector store still triggers the LLM-translation call (OpenRouter enabled)
and still executes the keyword search — the handler falls through to the
keyword path and reports its one file (`resultCount = 1`), instead of a
semantic-empty success with `resultCount = 0` and no LLM/keyword calls. -/
theorem C5_cex :
    (handleSearch exEnvSemUnindexed "x" "semantic" false).2.llmTranslateCalled = true ∧
      (handleSearch exEnvSemUnindexed "x" "semantic" false).2.keywordSearchExecuted = true ∧
      (handleSearch exEnvSemUnindexed "x" "semantic" false).1.resultCount = 1 ∧
      (handleSearch exEnvSemUnindexed "x" "semantic" false).1.success = true := by decide

/-- Claim C5 (amended): when a `mode=semantic` request is handled and the
vector store reports zero indexed chunks, no semantic query is issued and
the response carries no semantic results; the handler instead serves the
request through the keyword path, so LLM translation (when enabled) and
keyword search may still be attempted. -/
theorem C5_semantic_mode_unindexed (env : Env) (q mp : String) (d : Bool)
    (hm : mp = "semantic") (hi : env.isIndexed = false) :
    (handleSearch env q mp d).2.semanticQueried = false ∧
      (handleSearch env q mp d).1.semanticResults = none := by
  subst hm
  by_cases hq : q = ""
  · subst hq; exact ⟨rfl, rfl⟩
  · rcases h : translationStage env q d with ⟨ts, llmc⟩
    cases ts with
    | directAnswer da =>
      simp only [handleSearch, if_neg hq, h]
      exact ⟨by trivial, by trivial⟩
    | proceed zq it qt tu inl =>
      have hmode : (if ("semantic" : String) = "" then "hybrid" else "semantic")
          = "semantic" := by decide
      have hsem : semanticPhaseResults env "semantic" = [] :=
        semanticPhaseResults_unindexed env _ hi
      have hflag : semanticQueriedFlag env "semantic" = false :=
        semanticQueriedFlag_unindexed env _ hi
      simp only [handleSearch, if_neg hq, h, hmode, servePhase, hsem, hflag,
        List.length_nil, lt_self_iff_false, and_false, if_false]
      split
      · exact ⟨by trivial, by trivial⟩
      · obtain ⟨h1, h2⟩ := keywordPhase_no_sem env q "semantic" zq qt tu inl llmc false
        exact ⟨h2, h1⟩

/-- Witness for C5 (amended): the concrete unindexed environment satisfies
the amended claim. -/
theorem C5_semantic_mode_unindexed_witness :
    (handleSearch exEnvSemUnindexed "x" "semantic" false).2.semanticQueried = false ∧
      (handleSearch exEnvSemUnindexed "x" "semantic" false).1.semanticResults = none :=
  C5_semantic_mode_unindexed exEnvSemUnindexed "x" "semantic" false rfl rfl

/-- Claim C6: in hybrid mode, when the generated keyword query fails to
parse and semantic search returned at least one result, the handler
responds with `success = true` carrying the semantic results and the
explanatory note; when it fails to parse and there are no semantic results,
the handler responds with the structured parse-error object
(`success = false`, HTTP 400, non-empty error string) — never an
unstructured failure. -/
theorem C6_hybrid_parse_fallback (env : Env) (q zq qt tu : String) (it : Intent)
    (d inl llmc : Bool) (hq : q ≠ "")
    (ht : translationStage env q d = (TransStage.proceed zq it qt tu inl, llmc))
    (hp : env.parseOk zq = false) :
    (0 < (semanticPhaseResults env "hybrid").length →
      (handleSearch env q "hybrid" d).1.success = true ∧
        (handleSearch env q "hybrid" d).1.semanticResults
          = some (semanticPhaseResults env "hybrid") ∧
        (handleSearch env q "hybrid" d).1.note
          = "Keyword query failed, using semantic results" ∧
        (handleSearch env q "hybrid" d).1.status = 200) ∧
    ((semanticPhaseResults env "hybrid").length = 0 →
      (handleSearch env q "hybrid" d).1.success = false ∧
        (handleSearch env q "hybrid" d).1.status = 400 ∧
        (handleSearch env q "hybrid" d).1.error = "Query parse error") := by
  have hmode : (if ("hybrid" : String) = "" then "hybrid" else "hybrid") = "hybrid" := by decide
  have hns : ¬(("hybrid" : String) = "semantic" ∧
      0 < (semanticPhaseResults env "hybrid").length) :=
    fun hc => absurd hc.1 (by decide)
  constructor
  · intro hlen
    simp only [handleSearch, if_neg hq, ht, hmode, servePhase, if_neg hns, hp,
      eq_self_iff_true, if_true, if_pos hlen]
    exact ⟨by trivial, by trivial, by trivial, by trivial⟩
  · intro hlen
    simp only [handleSearch, if_neg hq, ht, hmode, servePhase, if_neg hns, hp,
      eq_self_iff_true, if_true, hlen, lt_self_iff_false, if_false]
    exact ⟨by trivial, by trivial, by trivial⟩

/-- Witness for C6: the concrete parse-fail environment with one semantic
result is served as semantic-only with the note and `success = true`. -/
theorem C6_hybrid_parse_fallback_witness :
    (handleSearch exEnvParseFail "x" "hybrid" false).1.success = true ∧
      (handleSearch exEnvParseFail "x" "hybrid" false).1.semanticResults
        = some (semanticPhaseResults exEnvParseFail "hybrid") ∧
      (handleSearch exEnvParseFail "x" "hybrid" false).1.note
        = "Keyword query failed, using semantic results" ∧
      (handleSearch exEnvParseFail "x" "hybrid" false).1.status = 200 :=
  (C6_hybrid_parse_fallback exEnvParseFail "x" "bad(" "search" "openrouter" exIntentSearch
    false true true (by decide) rfl rfl).1 (by decide)

set_option maxHeartbeats 2000000 in
/-- Claim C7: for every request classified with `count` intent that reaches
the keyword result stage, the reported result count equals the total number
of line matches summed across all keyword-matched files when that sum is
non-zero, and otherwise the number of matched files; and the count answer
string is produced from this computed count by the fixed template, with no
call to the completion service. -/
theorem C7_count_intent (env : Env) (q mp zq tu : String) (it : Intent) (d inl llmc : Bool)
    (hq : q ≠ "") (hm : mp ≠ "semantic")
    (ht : translationStage env q d = (TransStage.proceed zq it "count" tu inl, llmc))
    (hp : env.parseOk zq = true) :
    (handleSearch env q mp d).1.resultCount
        = (if 0 < kwLineMatchTotal env then kwLineMatchTotal env else kwFileCount env) ∧
      (handleSearch env q mp d).1.countAnswer
        = (if 0 < kwLineMatchTotal env then
            "Found " ++ toString (kwLineMatchTotal env) ++ " item(s)."
          else if 0 < kwFileCount env then
            "Found " ++ toString (kwFileCount env) ++ " file(s)."
          else "Found 0 items.") ∧
      (handleSearch env q mp d).2.answerServiceCalled = false := by
  have hsm : (if mp = "" then "hybrid" else mp) ≠ "semantic" := by
    by_cases h : mp = "" <;> simp [h, hm]
  have hns : ¬((if mp = "" then "hybrid" else mp) = "semantic" ∧
      0 < (semanticPhaseResults env (if mp = "" then "hybrid" else mp)).length) :=
    fun hc => absurd hc.1 hsm
  have hby : (("count" : String) == "yesno") = false := by decide
  simp only [handleSearch, if_neg hq, ht, servePhase, if_neg hns, hp,
    Bool.true_eq_false, if_false, keywordPhase, kwLineMatchTotal, kwFileCount, hby,
    Bool.false_and, eq_self_iff_true, true_and, if_true]
  rcases henv : env.keywordSearchResult with _ | r <;> simp only [henv] <;>
    refine ⟨?_, ?_, ?_⟩ <;> (repeat' split) <;> trivial

/-- Witness for C7: in the concrete environment the basic translator
classifies `"how many blogs"` as `count`; the keyword file has two line
matches, so the reported count is 2 and the count answer is the template
for 2 items, with no completion-service call. -/
theorem C7_count_intent_witness :
    (handleSearch exEnvCount "how many blogs" "hybrid" false).1.resultCount
        = (if 0 < kwLineMatchTotal exEnvCount then kwLineMatchTotal exEnvCount
           else kwFileCount exEnvCount) ∧
      (handleSearch exEnvCount "how many blogs" "hybrid" false).1.countAnswer
        = (if 0 < kwLineMatchTotal exEnvCount then
            "Found " ++ toString (kwLineMatchTotal exEnvCount) ++ " item(s)."
          else if 0 < kwFileCount exEnvCount then
            "Found " ++ toString (kwFileCount exEnvCount) ++ " file(s)."
          else "Found 0 items.") ∧
      (handleSearch exEnvCount "how many blogs" "hybrid" false).2.answerServiceCalled = false :=
  C7_count_intent exEnvCount "how many blogs" "hybrid" "title:" "basic"
    ⟨"count", "", "", 7 / 10, "title:", []⟩ false true false (by decide) (by decide) rfl rfl

/-! ## Claim C9: the budgeted snippet extractor -/

/-- Claim C9: for every search result and maximum file count, the budgeted
snippet extractor stops adding lines once either the per-file line budget
(`max (100 / maxFiles) 15`) or the global 100-line budget is reached — the
global total never exceeds 100, each file contributes at most the per-file
budget, at most `maxFiles` snippets are produced — and no extracted window
ever indexes past the end of the available file content or context-line
data (the out-of-bounds instrumentation flag stays `false`). -/
theorem C9_snippet_extraction_budget (result : SearchResult) (maxFiles : Nat) :
    (extractAnswerSnippets result maxFiles).oob = false ∧
      (extractAnswerSnippets result maxFiles).totalLines ≤ targetLinesTotal ∧
      (extractAnswerSnippets result maxFiles).count ≤ maxFiles ∧
      ∀ n ∈ (extractAnswerSnippets result maxFiles).perFile, n ≤ linesPerFileOf maxFiles := by
  have h := foldl_inv
    (fun acc : ExtAcc => acc.totalLines ≤ targetLinesTotal ∧ acc.oob = false ∧
      acc.count ≤ maxFiles ∧ ∀ n ∈ acc.perFile, n ≤ linesPerFileOf maxFiles)
    (fileStep (linesPerFileOf maxFiles) maxFiles)
    (fun acc file hacc => fileStep_inv (linesPerFileOf maxFiles) maxFiles acc file hacc)
    result.Files ⟨[], 0, 0, [], false⟩
    ⟨Nat.zero_le _, rfl, Nat.zero_le _, by simp⟩
  exact ⟨h.2.1, h.1, h.2.2.1, h.2.2.2⟩

end SDLC

